import Mathlib

/-!
Shallow embedding of the declaration-and-scope-binding pass implemented in
`cinderx/compiler/static/declaration_visitor.py` (class `DeclarationVisitor`
together with the helper class `NestedScope`).

The file first embeds the data model and the visitor, then proves theorems
about the embedded pass.  Collaborator code that is not part of the given
sources (`module_table.py`, `types.py`, `util.py`, the error sink) is
modelled from the spec where a definition is required; every such definition
carries a doc comment starting with `Modelled from the spec:`.
-/

namespace CinderDecl

/-- Identity of a class: the `(module, qualified name)` pair (`TypeName` in the
source's type environment). -/
structure TypeName where
  module : String
  name : String
deriving DecidableEq, Repr

/-- The observable concrete kind of a synthesized class object — the model of
the Python-level `type(cur_type)` comparison in `visitClassDef`. -/
inductive PyKind where
  | plainClass
  | tupleClass
  | dictClass
  | dynamicClass
  | metaClass
deriving DecidableEq, Repr

/-- Resolved static types as used by the declaration pass: the dynamic
sentinel, the universal root `object`, the three special marker bases the
pass recognizes by identity (`named_tuple`, `protocol`, `typed_dict`), and
ordinary concrete classes.  A concrete class records its identity, its own
concrete kind, its `is_final` flag, and the kind of subclass it synthesizes. -/
inductive StaticType where
  | dynamic
  | object
  | namedTuple
  | protocol
  | typedDict
  | klass (tn : TypeName) (kind : PyKind) (final : Bool) (subKind : PyKind)
deriving DecidableEq, Repr

/-- The `is_final` attribute of a resolved base.  Modelled from the spec: the
special marker types and the root are not final; a concrete class carries its
own flag. -/
def StaticType.is_final : StaticType → Bool
  | .klass _ _ f _ => f
  | _ => false

/-- Modelled from the spec: the display name of a type's instance, used only
to render the final-subclass error message (`klass.instance.name` /
`base.instance.name` in the source). -/
def StaticType.instanceName : StaticType → String
  | .dynamic => "dynamic"
  | .object => "object"
  | .namedTuple => "NamedTuple"
  | .protocol => "Protocol"
  | .typedDict => "TypedDict"
  | .klass tn _ _ _ => tn.name

/-- The concrete kind of a resolved type, the model of `type(cur_type)`. -/
def StaticType.pyKind : StaticType → PyKind
  | .dynamic => .dynamicClass
  | .klass _ k _ _ => k
  | _ => .metaClass

/-- `True` exactly for the three special marker bases that degrade a class in
the base-scan loop of `visitClassDef`. -/
def StaticType.isMarkerBase : StaticType → Bool
  | .namedTuple => true
  | .protocol => true
  | .typedDict => true
  | _ => false

/-- Modelled from the spec: `base.make_subclass(TypeName(...), bases)` from the
type environment (`types.py` is not among the given sources).  Each base type
polymorphically decides the concrete kind of the synthesized subclass; the
dynamic sentinel absorbs (spec: monotonic absorption).  The `bases` argument
is kept for signature fidelity; the model does not store base lists inside
class values. -/
def StaticType.make_subclass (base : StaticType) (tn : TypeName)
    (_bases : List StaticType) : StaticType :=
  match base with
  | .dynamic => .dynamic
  | .object => .klass tn .plainClass false .plainClass
  | .namedTuple => .klass tn .tupleClass false .tupleClass
  | .protocol => .klass tn .plainClass false .plainClass
  | .typedDict => .klass tn .dictClass false .dictClass
  | .klass _ _ _ sk => .klass tn sk false sk

/-- `klass.exact_type()`.  Modelled from the spec: the exact-type marker
itself is not observable in any property proved here (only whether the result
is the dynamic sentinel), so the model keeps the type unchanged; the dynamic
sentinel's exact type is itself. -/
def StaticType.exact_type (t : StaticType) : StaticType := t

/-- Expressions, as far as the declaration pass inspects them: it only ever
pattern-matches a `Name` node (the `TYPE_CHECKING` test); every other
expression is handed to external resolvers. -/
inductive Expr where
  | name (id : String)
  | dotted (base : String) (attr : String)
  | other (tag : Nat)
deriving DecidableEq, Repr

/-- A deferred cross-module import binding (`DeferredImport` in
`module_table.py`, reconstructed from its two call sites in `visitImport` and
`visitImportFrom`): the fully qualified module path, the optimization level,
the optional attribute for `from`-imports, and the optional top-level module
to return for plain un-aliased imports. -/
structure DeferredImport where
  modName : String
  optimize : Nat
  attrName : Option String
  mod_to_return : Option String
deriving DecidableEq, Repr

/-- Modelled from the spec: what resolving a deferred import ultimately
yields (resolution itself lives in a later pass): the module named
`mod_to_return` when set, otherwise the named attribute of `modName`,
otherwise the module `modName` itself. -/
def DeferredImport.resolvesTo (d : DeferredImport) : String :=
  match d.mod_to_return with
  | some m => m
  | none =>
    match d.attrName with
    | some a => d.modName ++ "." ++ a
    | none => d.modName

/-- A declared value as stored in a scope's member table or in the per-node
`module.types` annotation map. -/
inductive DeclValue where
  | clsDecl (t : StaticType)
  | funcDecl (name : String) (isAsync : Bool)
  | unknownDecorated (name : String)
  | varDecl (name : String)
  | impDecl (source : Option (String × String)) (d : DeferredImport)
deriving DecidableEq, Repr

/-- `True` exactly for deferred-import declarations. -/
def DeclValue.isImp : DeclValue → Bool
  | .impDecl _ _ => true
  | _ => false

/-- The scope variants of `TScopeTypes = Union[ModuleTable, Class, Function,
NestedScope]`.  Class and function scopes carry the member declarations made
inside them; the module scope's members live in the visitor state (there is
exactly one module table); `nested` is the declaration-swallowing
`NestedScope` whose `declare_*` methods are all `pass`. -/
inductive Scope where
  | module
  | cls (t : StaticType) (members : List (String × DeclValue))
  | func (name : String) (members : List (String × DeclValue))
  | nested
deriving DecidableEq, Repr

/-- The constructor kind of a scope, used to state stack-shape invariants
(declaring into a class or function scope updates its member list but never
its kind). -/
inductive ScopeKind where
  | moduleK
  | clsK
  | funcK
  | nestedK
deriving DecidableEq, Repr

/-- Kind of a scope. -/
def Scope.kind : Scope → ScopeKind
  | .module => .moduleK
  | .cls _ _ => .clsK
  | .func _ _ => .funcK
  | .nested => .nestedK

/-- Statements, restricted to the node kinds the `DeclarationVisitor`
dispatches on.  Each node carries a numeric id standing for the tree node
itself (the key of `module.types` and the location errors are attributed
to).  For `for`/`while`/`with`/`try` and their async variants the source
calls `generic_visit`, which walks every child field inside the same nested
scope, so the model flattens those children into one statement list. -/
inductive Stmt where
  | classDef (nid : Nat) (name : String) (bases : List Expr)
      (decorators : List Expr) (body : List Stmt)
  | funcDef (nid : Nat) (name : String) (isAsync : Bool)
      (decorators : List Expr) (body : List Stmt)
  | annAssign (nid : Nat) (target : String)
  | assign (nid : Nat) (targets : List String)
  | imp (nid : Nat) (names : List (String × Option String))
  | impFrom (nid : Nat) (modl : Option String)
      (names : List (String × Option String)) (level : Nat)
  | ifStmt (nid : Nat) (test : Expr) (body : List Stmt) (orelse : List Stmt)
  | forStmt (nid : Nat) (children : List Stmt)
  | asyncForStmt (nid : Nat) (children : List Stmt)
  | whileStmt (nid : Nat) (children : List Stmt)
  | withStmt (nid : Nat) (children : List Stmt)
  | asyncWithStmt (nid : Nat) (children : List Stmt)
  | tryStmt (nid : Nat) (children : List Stmt)
  | pass (nid : Nat)
deriving Repr

/-- The visitor's mutable state: the scope stack (head is the innermost
scope, the source's `self.scopes[-1]`), the module table's member map (head
is the most recent declaration, which wins lookups), the per-node type
annotations `module.types`, the recorded statically-known boolean tests, and
the accumulated error-sink contents.  Modelled from the spec: the error sink
accumulates user-facing errors and the pass continues after a recoverable
error. -/
structure VState where
  scopes : List Scope
  moduleMembers : List (String × DeclValue)
  types : List (Nat × DeclValue)
  knownBools : List (Expr × Bool)
  errors : List (Nat × String)
deriving DecidableEq, Repr

/-- The external compiler context the pass is given (spec section 6): the
module name, the optimization level, the type / decorator resolvers from the
module table, the decorator application `decorator.resolve_decorate_class`
from the type environment, and the `sys_hexversion_check` static-version
evaluator from `util.py`.  All are external collaborators of this file's
single source. -/
structure Env where
  modName : String
  optimize : Nat
  resolveType : Expr → Option StaticType
  resolveDecorator : Expr → Option StaticType
  decorateClass : StaticType → StaticType → Expr → StaticType
  sysHexCheck : Expr → Option Bool

/-- `DeclarationVisitor.enter_scope`: push on the stack. -/
def enter_scope (s : Scope) (stack : List Scope) : List Scope := s :: stack

/-- `DeclarationVisitor.exit_scope` (`self.scopes.pop()`): pops the top scope
unconditionally; popping an empty stack is a fatal `IndexError`, modelled as
`none` (it is an exception, not an entry recorded in the error sink). -/
def exit_scope : List Scope → Option (List Scope)
  | [] => none
  | _ :: rest => some rest

/-- Modelled from the spec: an exit operation that "asserts the popped scope
matches the one expected by the caller" — stated for comparison with the
source's `exit_scope`, which takes no expected scope at all. -/
def exit_scope_expected (expected : Scope) : List Scope → Option (List Scope)
  | [] => none
  | s :: rest => if s = expected then some rest else none

/-- Push a scope onto the visitor state's stack. -/
def pushScope (st : VState) (s : Scope) : VState :=
  { st with scopes := s :: st.scopes }

/-- Pop the visitor state's top scope.  Every use below is paired with a
preceding `pushScope`, so the stack is provably non-empty there and this
agrees with `exit_scope`. -/
def popScope (st : VState) : VState :=
  { st with scopes := st.scopes.tail }

/-- Append freshly emitted errors to the accumulated error-sink contents. -/
def addErrors (st : VState) (es : List (Nat × String)) : VState :=
  { st with errors := st.errors ++ es }

/-- Dispatch a declaration to the current innermost scope, the model of
`self.parent_scope().declare_*`: the module scope writes the module member
map, class and function scopes write their own member list, and
`NestedScope` swallows the declaration (its `declare_*` methods are `pass`).
An empty stack never occurs during a visit. -/
def declareInScope (st : VState) (n : String) (v : DeclValue) : VState :=
  match st.scopes with
  | Scope.module :: _ =>
    { st with moduleMembers := (n, v) :: st.moduleMembers }
  | Scope.cls t ms :: rest =>
    { st with scopes := Scope.cls t ((n, v) :: ms) :: rest }
  | Scope.func f ms :: rest =>
    { st with scopes := Scope.func f ((n, v) :: ms) :: rest }
  | Scope.nested :: _ => st
  | [] => st

/-- `self.module.declare_import(local_name, source, deferred)`: unlike the
other declarations this is invoked on the module table directly, not through
`parent_scope()`, so it always lands in the module member map. -/
def declareImp (st : VState) (localName : String)
    (source : Option (String × String)) (d : DeferredImport) : VState :=
  { st with moduleMembers := (localName, DeclValue.impDecl source d) :: st.moduleMembers }

/-- The characters before the first dot. -/
def takeUntilDot : List Char → List Char
  | [] => []
  | c :: cs => if c = Char.ofNat 46 then [] else c :: takeUntilDot cs

/-- The first dotted segment of a module path: `name.name.split(".")[0]`. -/
def topLevelModule (path : String) : String :=
  String.mk (takeUntilDot path.data)

/-- One alias of a plain `import` statement (`visitImport` loop body): without
an alias, bind the top-level segment to a deferred import that returns the
top-level module; with an alias, bind the alias to a deferred import of the
fully qualified path. -/
def visitImpName (env : Env) (st : VState) (nm : String × Option String) : VState :=
  match nm.2 with
  | none =>
    let top := topLevelModule nm.1
    declareImp st top none ⟨nm.1, env.optimize, none, some top⟩
  | some a =>
    declareImp st a none ⟨nm.1, env.optimize, none, none⟩

/-- One alias of a `from`-import (`visitImportFrom` loop body): bind the alias
(or the name itself) to a deferred `(module, name)` reference. -/
def declareFromName (env : Env) (st : VState) (m : String)
    (nm : String × Option String) : VState :=
  let child := nm.2.getD nm.1
  declareImp st child (some (m, nm.1)) ⟨m, env.optimize, some nm.1, none⟩

/-- The message of the `NotImplementedError` raised by `visitImportFrom` for
relative imports. -/
def relImportMsg : String :=
  "relative imports aren" ++ String.singleton (Char.ofNat 39) ++ "t supported"

/-- Error-sink entries produced by the subtype-agreement loop of
`visitClassDef`: one `"Incompatible subtypes"` error, attributed to the class
definition node, for every synthesized subclass whose concrete kind differs
from the first one's. -/
def incompatErrors (nid : Nat) (klasses : List StaticType) : List (Nat × String) :=
  match klasses with
  | [] => []
  | k0 :: _ =>
    klasses.filterMap fun c =>
      if c.pyKind ≠ k0.pyKind then some (nid, "Incompatible subtypes") else none

/-- The final-subclass error message of `visitClassDef`. -/
def finalSubclassError (klassName baseName : String) : String :=
  "Class `" ++ klassName ++ "` cannot subclass a Final class: `" ++ baseName ++ "`"

/-- The base-scan loop of `visitClassDef` (the `for base in bases` loop after
subclass synthesis): a named-tuple / protocol / typed-dict base immediately
degrades the class to the dynamic sentinel and stops the scan; a final base
emits the final-subclass error, attributed to the class definition node, and
continues with the class unchanged.  Returns the (possibly degraded) class
and the emitted errors in order. -/
def checkBases (k : StaticType) (nid : Nat) : List StaticType → StaticType × List (Nat × String)
  | [] => (k, [])
  | base :: rest =>
    if base = StaticType.namedTuple then (StaticType.dynamic, [])
    else if base = StaticType.protocol then (StaticType.dynamic, [])
    else if base = StaticType.typedDict then (StaticType.dynamic, [])
    else
      let tail := checkBases k nid rest
      if base.is_final then
        (tail.1, (nid, finalSubclassError k.instanceName base.instanceName) :: tail.2)
      else tail

/-- The nesting check of `visitClassDef` (`if not isinstance(parent_scope,
ModuleTable): klass = self.type_env.dynamic`): a class whose parent scope is
anything but the module table is forced to the dynamic sentinel. -/
def forceDynamic (headScope : Option Scope) (k : StaticType) : StaticType :=
  match headScope with
  | some Scope.module => k
  | _ => StaticType.dynamic

/-- The decorator loop of `visitClassDef`, already fed the reversed decorator
list: stop as soon as the class is the dynamic sentinel, otherwise resolve
the decorator (an unresolvable one resolves to the dynamic sentinel, and —
modelled from the spec — applying the dynamic sentinel as a decorator yields
the dynamic sentinel) and rewrite the class. -/
def applyDecoratorsRev (env : Env) : List Expr → StaticType → StaticType
  | [], k => k
  | d :: rest, k =>
    if k = StaticType.dynamic then k
    else
      let dec := (env.resolveDecorator d).getD StaticType.dynamic
      let k1 :=
        if dec = StaticType.dynamic then StaticType.dynamic
        else env.decorateClass dec k d
      applyDecoratorsRev env rest k1

/-- `for d in reversed(node.decorator_list): ...` — apply the decorators in
reverse syntactic order. -/
def applyDecorators (env : Env) (ds : List Expr) (k : StaticType) : StaticType :=
  applyDecoratorsRev env ds.reverse k

mutual

/-- Visit a statement list in order (`self.visit` over a body). -/
def visitStmts (env : Env) (st : VState) : List Stmt → Except String VState
  | [] => Except.ok st
  | s :: rest => do
    let st1 ← visitStmt env st s
    visitStmts env st1 rest

/-- The per-node dispatch of `DeclarationVisitor`.  The error sink is the
spec's accumulating sink, so `syntax_error` records and returns; the only
hard failure is the `NotImplementedError` for relative imports, modelled as
`Except.error`.  The `InitSubclassFunction` special case of `_make_function`
(metadata on the enclosing class) is not modelled: no property here observes
it. -/
def visitStmt (env : Env) (st : VState) : Stmt → Except String VState
  | .pass _ => Except.ok st
  | .annAssign _ target =>
    Except.ok (declareInScope st target (DeclValue.varDecl target))
  | .assign _ targets =>
    Except.ok (targets.foldl (fun s t => declareInScope s t (DeclValue.varDecl t)) st)
  | .imp _ names =>
    Except.ok (names.foldl (fun s nm => visitImpName env s nm) st)
  | .impFrom _ modl names level =>
    match modl with
    | none => Except.error relImportMsg
    | some m =>
      if m = "" ∨ level ≠ 0 then Except.error relImportMsg
      else Except.ok (names.foldl (fun s nm => declareFromName env s m nm) st)
  | .funcDef nid name isAsync decorators body => do
    let st1 := pushScope st (Scope.func name [])
    let st2 ← visitStmts env st1 body
    let st3 := popScope st2
    let fty : DeclValue :=
      if decorators.isEmpty then DeclValue.funcDecl name isAsync
      else DeclValue.unknownDecorated name
    let st4 := { st3 with types := (nid, fty) :: st3.types }
    Except.ok (declareInScope st4 name (DeclValue.funcDecl name isAsync))
  | .classDef nid name bases decorators body => do
    let rbs0 := bases.map fun b => (env.resolveType b).getD StaticType.dynamic
    let rbs := if rbs0.isEmpty then [StaticType.object] else rbs0
    let tn : TypeName := ⟨env.modName, name⟩
    let klasses := rbs.map fun b => b.make_subclass tn rbs
    let st1 := addErrors st (incompatErrors nid klasses)
    let k0 := klasses.headD StaticType.dynamic
    let scan := checkBases k0 nid rbs
    let st2 := addErrors st1 scan.2
    let k2 := forceDynamic st2.scopes.head? scan.1
    let st3 := pushScope st2
      (if k2 = StaticType.dynamic then Scope.nested else Scope.cls k2 [])
    let st4 ← visitStmts env st3 body
    let st5 := popScope st4
    let k3 := applyDecorators env decorators k2
    let st6 := declareInScope st5 name (DeclValue.clsDecl k3.exact_type)
    Except.ok { st6 with types := (nid, DeclValue.clsDecl k3.exact_type) :: st6.types }
  | .ifStmt _ test body orelse =>
    if test = Expr.name "TYPE_CHECKING" then do
      let st1 ← visitStmts env st body
      match orelse with
      | [] => Except.ok st1
      | _ => do
        let st2 ← visitStmts env (pushScope st1 Scope.nested) orelse
        Except.ok (popScope st2)
    else
      match env.sysHexCheck test with
      | some r =>
        let stm := { st with knownBools := (test, r) :: st.knownBools }
        if r then visitStmts env stm body else visitStmts env stm orelse
      | none => do
        let st1 ← visitStmts env (pushScope st Scope.nested) body
        let st2 := popScope st1
        match orelse with
        | [] => Except.ok st2
        | _ => do
          let st3 ← visitStmts env (pushScope st2 Scope.nested) orelse
          Except.ok (popScope st3)
  | .forStmt _ children => do
    let st1 ← visitStmts env (pushScope st Scope.nested) children
    Except.ok (popScope st1)
  | .asyncForStmt _ children => do
    let st1 ← visitStmts env (pushScope st Scope.nested) children
    Except.ok (popScope st1)
  | .whileStmt _ children => do
    let st1 ← visitStmts env (pushScope st Scope.nested) children
    Except.ok (popScope st1)
  | .withStmt _ children => do
    let st1 ← visitStmts env (pushScope st Scope.nested) children
    Except.ok (popScope st1)
  | .asyncWithStmt _ children => do
    let st1 ← visitStmts env (pushScope st Scope.nested) children
    Except.ok (popScope st1)
  | .tryStmt _ children => do
    let st1 ← visitStmts env (pushScope st Scope.nested) children
    Except.ok (popScope st1)

end

/-- The visitor's initial state for one module: the stack holds exactly the
module scope and every table is empty. -/
def stInit : VState := ⟨[Scope.module], [], [], [], []⟩

/-- The children list of a loop / `with` / `try` style statement, the node
kinds the visitor always wraps in a fresh `NestedScope`. -/
def loopLikeChildren : Stmt → Option (List Stmt)
  | .forStmt _ c => some c
  | .asyncForStmt _ c => some c
  | .whileStmt _ c => some c
  | .withStmt _ c => some c
  | .asyncWithStmt _ c => some c
  | .tryStmt _ c => some c
  | _ => none

/-- A minimal concrete compiler context: nothing resolves, no static version
checks decide. -/
def env0 : Env :=
  { modName := "m", optimize := 0,
    resolveType := fun _ => none,
    resolveDecorator := fun _ => none,
    decorateClass := fun _ k _ => k,
    sysHexCheck := fun _ => none }

/-- A concrete base class whose synthesized subclasses are plain classes. -/
def clsB1 : StaticType := .klass ⟨"m", "B1"⟩ .plainClass false .plainClass

/-- A concrete base class whose synthesized subclasses are tuple-kind
classes, so that it disagrees with `clsB1` on the synthesized kind. -/
def clsB2 : StaticType := .klass ⟨"m", "B2"⟩ .plainClass false .tupleClass

/-- A final class synthesizing tuple-kind subclasses (kind-compatible with a
named-tuple base). -/
def clsF : StaticType := .klass ⟨"m", "F"⟩ .plainClass true .tupleClass

/-- A plain, non-final concrete base class. -/
def clsP : StaticType := .klass ⟨"m", "P"⟩ .plainClass false .plainClass

/-- A final plain concrete base class. -/
def clsF2 : StaticType := .klass ⟨"m", "F2"⟩ .plainClass true .plainClass

/-- Context resolving the two kind-incompatible bases `B1` and `B2`. -/
def envC1 : Env :=
  { env0 with resolveType := fun e =>
      match e with
      | .name "B1" => some clsB1
      | .name "B2" => some clsB2
      | _ => none }

/-- Context resolving a named-tuple marker base, two final classes and a
plain class. -/
def envC7 : Env :=
  { env0 with resolveType := fun e =>
      match e with
      | .name "NT" => some StaticType.namedTuple
      | .name "F" => some clsF
      | .name "P" => some clsP
      | .name "F2" => some clsF2
      | _ => none }

/-- A concrete decorator value named `D1`. -/
def decD1 : StaticType := .klass ⟨"m", "D1"⟩ .plainClass false .plainClass

/-- A concrete decorator value named `D2`. -/
def decD2 : StaticType := .klass ⟨"m", "D2"⟩ .plainClass false .plainClass

/-- Context resolving the decorators `D1` and `D2` and applying a decorator
by wrapping the decorated class name, so that application order is visible
in the resulting type. -/
def envC5 : Env :=
  { env0 with
    resolveDecorator := fun e =>
      match e with
      | .name "D1" => some decD1
      | .name "D2" => some decD2
      | _ => none,
    decorateClass := fun dec k _ =>
      match dec, k with
      | .klass tnd _ _ _, .klass tnk kk fk sk =>
        .klass ⟨tnk.module, tnd.name ++ "(" ++ tnk.name ++ ")"⟩ kk fk sk
      | _, _ => StaticType.dynamic }

/-- A state whose innermost scope is a function scope (the visitor is in the
middle of a function body). -/
def stFuncW : VState := ⟨[Scope.func "f" [], Scope.module], [], [], [], []⟩

/-- A state whose innermost scope is a class scope (the visitor is in the
middle of a class body). -/
def stClsW : VState := ⟨[Scope.cls clsP [], Scope.module], [], [], [], []⟩

/-- The module member map grew only by deferred-import declarations. -/
def importOnlyExt (old new : List (String × DeclValue)) : Prop :=
  ∃ m, new = m ++ old ∧ ∀ p ∈ m, DeclValue.isImp p.2 = true

/-- Invariant relating the state before and after visiting any statement:
the scope stack keeps its shape (kinds), the error sink only grows, and the
module member map only grows — by imports alone whenever the innermost scope
is not the module scope. -/
def stepInv (st st' : VState) : Prop :=
  st'.scopes.map Scope.kind = st.scopes.map Scope.kind ∧
  (∃ e, st'.errors = st.errors ++ e) ∧
  (∃ m, st'.moduleMembers = m ++ st.moduleMembers ∧
    ((st.scopes.map Scope.kind).head? ≠ some ScopeKind.moduleK →
      ∀ p ∈ m, DeclValue.isImp p.2 = true))

/-- Strengthening of `stepInv` for visits that happen entirely inside a
freshly pushed non-module scope: the member growth is import-only
unconditionally. -/
def nestedInv (st st' : VState) : Prop :=
  st'.scopes.map Scope.kind = st.scopes.map Scope.kind ∧
  (∃ e, st'.errors = st.errors ++ e) ∧
  importOnlyExt st.moduleMembers st'.moduleMembers

lemma nestedInv.toStepInv {st st' : VState} (h : nestedInv st st') : stepInv st st' := by
  obtain ⟨hs, he, m, hm, hi⟩ := h
  exact ⟨hs, he, m, hm, fun _ => hi⟩

lemma stepInv_refl (st : VState) : stepInv st st :=
  ⟨rfl, ⟨[], by simp⟩, ⟨[], by simp, fun _ _ h => absurd h (List.not_mem_nil _)⟩⟩

lemma stepInv_trans {a b c : VState} (h1 : stepInv a b) (h2 : stepInv b c) :
    stepInv a c := by
  obtain ⟨hs1, ⟨e1, he1⟩, ⟨m1, hm1, hi1⟩⟩ := h1
  obtain ⟨hs2, ⟨e2, he2⟩, ⟨m2, hm2, hi2⟩⟩ := h2
  refine ⟨hs2.trans hs1, ⟨e1 ++ e2, ?_⟩, ⟨m2 ++ m1, ?_, ?_⟩⟩
  · rw [he2, he1, List.append_assoc]
  · rw [hm2, hm1, List.append_assoc]
  · intro hmod p hp
    rcases List.mem_append.1 hp with h | h
    · refine hi2 ?_ p h
      rw [hs1]
      exact hmod
    · exact hi1 hmod p h

lemma stepInv_declareInScope (st : VState) (n : String) (v : DeclValue) :
    stepInv st (declareInScope st n v) := by
  cases hs : st.scopes with
  | nil =>
    simp only [declareInScope, hs]
    exact stepInv_refl st
  | cons top rest =>
    cases top with
    | module =>
      simp only [declareInScope, hs]
      refine ⟨by simp [hs], ⟨[], by simp⟩, ⟨[(n, v)], rfl, ?_⟩⟩
      intro hmod
      rw [hs] at hmod
      simp [Scope.kind] at hmod
    | cls t ms =>
      simp only [declareInScope, hs]
      exact ⟨by simp [hs, Scope.kind], ⟨[], by simp⟩,
        ⟨[], by simp, fun _ _ h => absurd h (List.not_mem_nil _)⟩⟩
    | func f ms =>
      simp only [declareInScope, hs]
      exact ⟨by simp [hs, Scope.kind], ⟨[], by simp⟩,
        ⟨[], by simp, fun _ _ h => absurd h (List.not_mem_nil _)⟩⟩
    | nested =>
      simp only [declareInScope, hs]
      exact stepInv_refl st

lemma stepInv_declareImp (st : VState) (l : String)
    (src : Option (String × String)) (d : DeferredImport) :
    stepInv st (declareImp st l src d) := by
  refine ⟨rfl, ⟨[], by simp [declareImp]⟩, ⟨[(l, DeclValue.impDecl src d)], rfl, ?_⟩⟩
  intro _ p hp
  simp only [List.mem_singleton] at hp
  rw [hp]
  rfl

lemma stepInv_visitImpName (env : Env) (st : VState) (nm : String × Option String) :
    stepInv st (visitImpName env st nm) := by
  unfold visitImpName
  match nm.2 with
  | none => exact stepInv_declareImp ..
  | some a => exact stepInv_declareImp ..

lemma stepInv_declareFromName (env : Env) (st : VState) (m : String)
    (nm : String × Option String) :
    stepInv st (declareFromName env st m nm) :=
  stepInv_declareImp ..

lemma stepInv_addErrors (st : VState) (es : List (Nat × String)) :
    stepInv st (addErrors st es) :=
  ⟨rfl, ⟨es, rfl⟩, ⟨[], by simp [addErrors], fun _ _ h => absurd h (List.not_mem_nil _)⟩⟩

lemma stepInv_setTypes (st : VState) (ts : List (Nat × DeclValue)) :
    stepInv st { st with types := ts } :=
  ⟨rfl, ⟨[], by simp⟩, ⟨[], by simp, fun _ _ h => absurd h (List.not_mem_nil _)⟩⟩

lemma stepInv_setKnownBools (st : VState) (kb : List (Expr × Bool)) :
    stepInv st { st with knownBools := kb } :=
  ⟨rfl, ⟨[], by simp⟩, ⟨[], by simp, fun _ _ h => absurd h (List.not_mem_nil _)⟩⟩

lemma stepInv_foldl {α : Type} (f : VState → α → VState)
    (hf : ∀ st x, stepInv st (f st x)) :
    ∀ (l : List α) (st : VState), stepInv st (l.foldl f st)
  | [], st => stepInv_refl st
  | x :: xs, st => stepInv_trans (hf st x) (stepInv_foldl f hf xs (f st x))

/-- A visit that runs between `enter_scope` of a non-module scope and the
matching `exit_scope` extends the module member map by imports only. -/
lemma nestedInv_of_push_pop {st st1 : VState} (sc : Scope)
    (hk : Scope.kind sc ≠ ScopeKind.moduleK)
    (h : stepInv (pushScope st sc) st1) : nestedInv st (popScope st1) := by
  obtain ⟨hs, ⟨e, he⟩, ⟨m, hm, hi⟩⟩ := h
  have himp : ∀ p ∈ m, DeclValue.isImp p.2 = true := by
    refine hi ?_
    simp only [pushScope, List.map_cons, List.head?_cons]
    intro hc
    exact hk (Option.some.injEq _ _ ▸ hc)
  refine ⟨?_, ⟨e, he⟩, ⟨m, hm, himp⟩⟩
  have : st1.scopes.map Scope.kind = Scope.kind sc :: st.scopes.map Scope.kind := hs
  cases hsc : st1.scopes with
  | nil => rw [hsc] at this; simp at this
  | cons a rest =>
    rw [hsc] at this
    simp only [List.map_cons, List.cons.injEq] at this
    simp [popScope, hsc, this.2]

lemma except_bind_ok {α β : Type} {x : Except String α} {f : α → Except String β} {b : β}
    (h : x >>= f = Except.ok b) : ∃ a, x = Except.ok a ∧ f a = Except.ok b := by
  cases x with
  | error e => simp [Bind.bind, Except.bind] at h
  | ok a =>
    refine ⟨a, rfl, ?_⟩
    simpa [Bind.bind, Except.bind] using h

/-- Core invariant: visiting any single statement preserves the shape of the
scope stack, only appends to the error sink, and only extends the module
member map — by imports alone when the innermost scope is not the module
scope. -/
theorem stepInv_visitStmt (env : Env) :
    ∀ (st : VState) (s : Stmt) (st' : VState),
      visitStmt env st s = Except.ok st' → stepInv st st' := by
  apply visitStmt.induct env
    (fun st ss => ∀ st', visitStmts env st ss = Except.ok st' → stepInv st st')
    (fun st s => ∀ st', visitStmt env st s = Except.ok st' → stepInv st st')
  · intro st nid st' h
    simp only [visitStmt, Except.ok.injEq] at h
    subst h
    exact stepInv_refl st
  · intro st nid target st' h
    simp only [visitStmt, Except.ok.injEq] at h
    subst h
    exact stepInv_declareInScope ..
  · intro st nid targets st' h
    simp only [visitStmt, Except.ok.injEq] at h
    subst h
    exact stepInv_foldl _ (fun s t => stepInv_declareInScope s t _) targets st
  · intro st nid names st' h
    simp only [visitStmt, Except.ok.injEq] at h
    subst h
    exact stepInv_foldl _ (fun s nm => stepInv_visitImpName env s nm) names st
  · intro st nid names level st' h
    simp only [visitStmt] at h
    exact Except.noConfusion h
  · intro st nid names level a hcond st' h
    simp only [visitStmt, if_pos hcond] at h
    exact Except.noConfusion h
  · intro st nid names level a hcond st' h
    simp only [visitStmt, if_neg hcond, Except.ok.injEq] at h
    subst h
    exact stepInv_foldl _ (fun s nm => stepInv_declareFromName env s a nm) names st
  · intro st nid name isAsync decorators body st1 IH st' h
    simp only [visitStmt] at h
    obtain ⟨st2, h2, h3⟩ := except_bind_ok h
    simp only [Except.ok.injEq] at h3
    subst h3
    have hbody : stepInv (pushScope st (Scope.func name [])) st2 := IH st2 h2
    have hpop : stepInv st (popScope st2) :=
      (nestedInv_of_push_pop (Scope.func name []) (by simp [Scope.kind]) hbody).toStepInv
    exact stepInv_trans (stepInv_trans hpop (stepInv_setTypes ..)) (stepInv_declareInScope ..)
  · intro st nid name bases decorators body rbs0 rbs tn klasses st1 k0 scan st2 k2 st3 IH st' h
    simp only [visitStmt] at h
    obtain ⟨st4, h4, h5⟩ := except_bind_ok h
    simp only [Except.ok.injEq] at h5
    subst h5
    have hbody : stepInv st3 st4 := IH st4 h4
    have hk : Scope.kind (if k2 = StaticType.dynamic then Scope.nested else Scope.cls k2 []) ≠
        ScopeKind.moduleK := by
      split <;> simp [Scope.kind]
    have hpop : stepInv st2 (popScope st4) :=
      (nestedInv_of_push_pop _ hk hbody).toStepInv
    have hpre : stepInv st st2 :=
      stepInv_trans (stepInv_addErrors ..) (stepInv_addErrors ..)
    exact stepInv_trans (stepInv_trans (stepInv_trans hpre hpop) (stepInv_declareInScope ..))
      (stepInv_setTypes ..)
  · intro st nid body orelse IH1 IH2 st' h
    simp only [visitStmt, reduceIte] at h
    obtain ⟨st1, h1, h2⟩ := except_bind_ok h
    have hb : stepInv st st1 := IH1 st1 h1
    cases orelse with
    | nil =>
      simp only [Except.ok.injEq] at h2
      subst h2
      exact hb
    | cons o os =>
      obtain ⟨st2, h3, h4⟩ := except_bind_ok h2
      simp only [Except.ok.injEq] at h4
      subst h4
      have ho : stepInv (pushScope st1 Scope.nested) st2 := IH2 st1 st2 h3
      exact stepInv_trans hb (nestedInv_of_push_pop _ (by simp [Scope.kind]) ho).toStepInv
  · intro st nid test body orelse htest hhex stm IH st' h
    simp only [visitStmt, if_neg htest] at h
    rw [hhex] at h
    simp only [if_pos] at h
    exact stepInv_trans (stepInv_setKnownBools ..) (IH st' h)
  · intro st nid test body orelse htest r hhex stm hr IH st' h
    simp only [visitStmt, if_neg htest] at h
    rw [hhex] at h
    rw [Bool.not_eq_true] at hr
    subst hr
    simp only [Bool.false_eq_true, if_false] at h
    exact stepInv_trans (stepInv_setKnownBools ..) (IH st' h)
  · intro st nid test body orelse htest hhex IH1 IH2 st' h
    simp only [visitStmt, if_neg htest] at h
    rw [hhex] at h
    obtain ⟨st1, h1, h2⟩ := except_bind_ok h
    have hb : stepInv st (popScope st1) :=
      (nestedInv_of_push_pop _ (by simp [Scope.kind]) (IH1 st1 h1)).toStepInv
    cases orelse with
    | nil =>
      simp only [Except.ok.injEq] at h2
      subst h2
      exact hb
    | cons o os =>
      obtain ⟨st3, h3, h4⟩ := except_bind_ok h2
      simp only [Except.ok.injEq] at h4
      subst h4
      have ho : stepInv (pushScope (popScope st1) Scope.nested) st3 := IH2 st1 st3 h3
      exact stepInv_trans hb (nestedInv_of_push_pop _ (by simp [Scope.kind]) ho).toStepInv
  · intro st nid children IH st' h
    simp only [visitStmt] at h
    obtain ⟨st1, h1, h2⟩ := except_bind_ok h
    simp only [Except.ok.injEq] at h2
    subst h2
    exact (nestedInv_of_push_pop _ (by simp [Scope.kind]) (IH st1 h1)).toStepInv
  · intro st nid children IH st' h
    simp only [visitStmt] at h
    obtain ⟨st1, h1, h2⟩ := except_bind_ok h
    simp only [Except.ok.injEq] at h2
    subst h2
    exact (nestedInv_of_push_pop _ (by simp [Scope.kind]) (IH st1 h1)).toStepInv
  · intro st nid children IH st' h
    simp only [visitStmt] at h
    obtain ⟨st1, h1, h2⟩ := except_bind_ok h
    simp only [Except.ok.injEq] at h2
    subst h2
    exact (nestedInv_of_push_pop _ (by simp [Scope.kind]) (IH st1 h1)).toStepInv
  · intro st nid children IH st' h
    simp only [visitStmt] at h
    obtain ⟨st1, h1, h2⟩ := except_bind_ok h
    simp only [Except.ok.injEq] at h2
    subst h2
    exact (nestedInv_of_push_pop _ (by simp [Scope.kind]) (IH st1 h1)).toStepInv
  · intro st nid children IH st' h
    simp only [visitStmt] at h
    obtain ⟨st1, h1, h2⟩ := except_bind_ok h
    simp only [Except.ok.injEq] at h2
    subst h2
    exact (nestedInv_of_push_pop _ (by simp [Scope.kind]) (IH st1 h1)).toStepInv
  · intro st nid children IH st' h
    simp only [visitStmt] at h
    obtain ⟨st1, h1, h2⟩ := except_bind_ok h
    simp only [Except.ok.injEq] at h2
    subst h2
    exact (nestedInv_of_push_pop _ (by simp [Scope.kind]) (IH st1 h1)).toStepInv
  · intro st st' h
    simp only [visitStmts, Except.ok.injEq] at h
    subst h
    exact stepInv_refl st
  · intro st s rest IH1 IH2 st' h
    simp only [visitStmts] at h
    obtain ⟨st1, h1, h2⟩ := except_bind_ok h
    exact stepInv_trans (IH1 st1 h1) (IH2 st1 st' h2)

/-- `stepInv` also holds across a whole statement list. -/
theorem stepInv_visitStmts (env : Env) :
    ∀ (ss : List Stmt) (st st' : VState),
      visitStmts env st ss = Except.ok st' → stepInv st st'
  | [], st, st', h => by
    simp only [visitStmts, Except.ok.injEq] at h
    subst h
    exact stepInv_refl st
  | s :: rest, st, st', h => by
    simp only [visitStmts] at h
    obtain ⟨st1, h1, h2⟩ := except_bind_ok h
    exact stepInv_trans (stepInv_visitStmt env st s st1 h1)
      (stepInv_visitStmts env rest st1 st' h2)

lemma applyDecoratorsRev_dynamic (env : Env) (l : List Expr) :
    applyDecoratorsRev env l StaticType.dynamic = StaticType.dynamic := by
  cases l <;> simp [applyDecoratorsRev]

lemma forceDynamic_nonmodule {o : Option Scope} (h : o ≠ some Scope.module) :
    ∀ k, forceDynamic o k = StaticType.dynamic := by
  intro k
  match o with
  | none => rfl
  | some Scope.module => exact absurd rfl h
  | some (Scope.cls _ _) => rfl
  | some (Scope.func _ _) => rfl
  | some Scope.nested => rfl

lemma make_subclass_ne_dynamic {b : StaticType} (hb : b ≠ StaticType.dynamic)
    (tn : TypeName) (bs : List StaticType) :
    b.make_subclass tn bs ≠ StaticType.dynamic := by
  cases b <;> simp [StaticType.make_subclass] at hb ⊢

lemma checkBases_no_marker (k : StaticType) (nid : Nat) :
    ∀ bs : List StaticType, (∀ b ∈ bs, StaticType.isMarkerBase b = false) →
      checkBases k nid bs =
        (k, (bs.filter fun b => b.is_final).map
          fun b => (nid, finalSubclassError k.instanceName b.instanceName))
  | [], _ => by simp [checkBases]
  | b :: rest, h => by
    have hb : StaticType.isMarkerBase b = false := h b (List.mem_cons_self ..)
    have hrest : ∀ x ∈ rest, StaticType.isMarkerBase x = false :=
      fun x hx => h x (List.mem_cons_of_mem _ hx)
    have hnt : b ≠ StaticType.namedTuple := by
      intro he; rw [he] at hb; simp [StaticType.isMarkerBase] at hb
    have hpr : b ≠ StaticType.protocol := by
      intro he; rw [he] at hb; simp [StaticType.isMarkerBase] at hb
    have htd : b ≠ StaticType.typedDict := by
      intro he; rw [he] at hb; simp [StaticType.isMarkerBase] at hb
    rw [checkBases, if_neg hnt, if_neg hpr, if_neg htd,
      checkBases_no_marker k nid rest hrest]
    cases hf : b.is_final <;> simp [List.filter_cons, hf]

lemma declareInScope_errors (st : VState) (n : String) (v : DeclValue) :
    (declareInScope st n v).errors = st.errors := by
  cases hs : st.scopes with
  | nil => simp [declareInScope, hs]
  | cons top rest => cases top <;> simp [declareInScope, hs]

lemma declareInScope_types (st : VState) (n : String) (v : DeclValue) :
    (declareInScope st n v).types = st.types := by
  cases hs : st.scopes with
  | nil => simp [declareInScope, hs]
  | cons top rest => cases top <;> simp [declareInScope, hs]

/-- Anatomy of `visitClassDef` for an undecorated class at module scope whose
resolved bases contain no degradation marker: every subtype-incompatibility
error and every final-base error lands in the error sink of the final state,
and the node's recorded type is the first base's synthesized subclass. -/
lemma classDef_resolution
    (env : Env) (st : VState) (nid : Nat) (name : String) (bs : List Expr)
    (body : List Stmt) (st' : VState) (Bs : List StaticType)
    (hres : List.map (fun b => (env.resolveType b).getD StaticType.dynamic) bs = Bs)
    (hne : Bs ≠ [])
    (hnm : ∀ b ∈ Bs, StaticType.isMarkerBase b = false)
    (hmod : st.scopes.head? = some Scope.module)
    (hok : visitStmt env st (Stmt.classDef nid name bs [] body) = Except.ok st') :
    (∀ er ∈ incompatErrors nid
        (Bs.map fun b => b.make_subclass ⟨env.modName, name⟩ Bs), er ∈ st'.errors) ∧
    (∀ er ∈ (checkBases
        ((Bs.map fun b => b.make_subclass ⟨env.modName, name⟩ Bs).headD StaticType.dynamic)
        nid Bs).2, er ∈ st'.errors) ∧
    st'.types.lookup nid = some (DeclValue.clsDecl
      (((Bs.map fun b => b.make_subclass ⟨env.modName, name⟩ Bs).headD
        StaticType.dynamic).exact_type)) := by
  have hempty : Bs.isEmpty = false := by
    cases Bs with
    | nil => exact absurd rfl hne
    | cons a l => rfl
  simp only [visitStmt] at hok
  rw [hres, hempty] at hok
  simp only [Bool.false_eq_true, if_false, addErrors] at hok
  rw [checkBases_no_marker _ _ _ hnm] at hok
  rw [hmod] at hok
  simp only [forceDynamic] at hok
  obtain ⟨st4, hbody, hfin⟩ := except_bind_ok hok
  simp only [applyDecorators, List.reverse_nil, applyDecoratorsRev,
    Except.ok.injEq] at hfin
  subst hfin
  obtain ⟨_, ⟨e, he⟩, _⟩ := stepInv_visitStmts env body _ st4 hbody
  simp only [pushScope] at he
  constructor
  · intro er her
    simp only [declareInScope_errors, popScope, he]
    exact List.mem_append_left _ (List.mem_append_left _
      (List.mem_append_right _ her))
  constructor
  · intro er her
    rw [checkBases_no_marker _ _ _ hnm] at her
    simp only [declareInScope_errors, popScope, he]
    exact List.mem_append_left _ (List.mem_append_right _ her)
  · simp [declareInScope_types, List.lookup]

/-- Anatomy of `visitClassDef` when the innermost scope is not the module
scope: the node's recorded type is the dynamic sentinel, whatever the bases
and decorators are. -/
lemma classDef_nonmodule_dynamic
    (env : Env) (st : VState) (nid : Nat) (name : String)
    (bs decorators : List Expr) (body : List Stmt) (st' : VState)
    (hhead : st.scopes.head? ≠ some Scope.module)
    (hok : visitStmt env st (Stmt.classDef nid name bs decorators body) = Except.ok st') :
    st'.types.lookup nid = some (DeclValue.clsDecl StaticType.dynamic) := by
  simp only [visitStmt, addErrors] at hok
  rw [forceDynamic_nonmodule hhead] at hok
  obtain ⟨st4, hbody, hfin⟩ := except_bind_ok hok
  simp only [applyDecorators, applyDecoratorsRev_dynamic, Except.ok.injEq] at hfin
  subst hfin
  simp [declareInScope_types, List.lookup, StaticType.exact_type]

/-- Claim C1, counterexample: a module-level class whose two bases synthesize
subclasses of different concrete kinds.  The pass does report
`"Incompatible subtypes"` at the class definition node, but the class's
resolved type is the first base's synthesized subclass, not the dynamic
sentinel — refuting the claimed degradation. -/
theorem c1_counterexample :
    ∃ st', visitStmt envC1 stInit
        (Stmt.classDef 1 "C" [Expr.name "B1", Expr.name "B2"] [] []) =
      Except.ok st' ∧
    (1, "Incompatible subtypes") ∈ st'.errors ∧
    st'.types.lookup 1 ≠ some (DeclValue.clsDecl StaticType.dynamic) :=
  ⟨_, rfl, by decide, by decide⟩

/-- Claim C1, amended: for a module-level undecorated class definition whose
two bases resolve to non-marker types with disagreeing synthesized subclass
kinds, the pass reports `"Incompatible subtypes"` attributed to the class
definition node, and resolution continues with the first base's synthesized
subclass — which is not the dynamic sentinel — rather than degrading. -/
theorem c1_incompatible_reported_class_stays_concrete
    (env : Env) (st : VState) (nid : Nat) (name : String) (b1 b2 : Expr)
    (B1 B2 : StaticType) (body : List Stmt) (st' : VState)
    (h1 : env.resolveType b1 = some B1) (h2 : env.resolveType b2 = some B2)
    (hkind : (B1.make_subclass ⟨env.modName, name⟩ [B1, B2]).pyKind ≠
      (B2.make_subclass ⟨env.modName, name⟩ [B1, B2]).pyKind)
    (hm1 : B1.isMarkerBase = false) (hm2 : B2.isMarkerBase = false)
    (hdyn : B1 ≠ StaticType.dynamic)
    (hmod : st.scopes.head? = some Scope.module)
    (hok : visitStmt env st (Stmt.classDef nid name [b1, b2] [] body) = Except.ok st') :
    (nid, "Incompatible subtypes") ∈ st'.errors ∧
    st'.types.lookup nid = some (DeclValue.clsDecl
      ((B1.make_subclass ⟨env.modName, name⟩ [B1, B2]).exact_type)) ∧
    B1.make_subclass ⟨env.modName, name⟩ [B1, B2] ≠ StaticType.dynamic := by
  have hres : List.map (fun b => (env.resolveType b).getD StaticType.dynamic) [b1, b2] =
      [B1, B2] := by simp [h1, h2]
  have hnm : ∀ b ∈ [B1, B2], StaticType.isMarkerBase b = false := by
    intro b hb
    rcases List.mem_pair.1 hb with rfl | rfl
    · exact hm1
    · exact hm2
  obtain ⟨hc1, _, hty⟩ := classDef_resolution env st nid name [b1, b2] body st'
    [B1, B2] hres (by simp) hnm hmod hok
  have hmem : (nid, "Incompatible subtypes") ∈ incompatErrors nid
      (List.map (fun b => b.make_subclass ⟨env.modName, name⟩ [B1, B2]) [B1, B2]) := by
    unfold incompatErrors
    simp only [List.map_cons, List.map_nil, List.filterMap_cons, List.filterMap_nil]
    rw [if_neg (fun hc => hc rfl), if_pos (fun hc => hkind hc.symm)]
    simp
  exact ⟨hc1 _ hmem, hty, make_subclass_ne_dynamic hdyn _ _⟩

/-- Witness for the amended C1 theorem at a concrete input. -/
theorem c1_witness :
    ∃ st', visitStmt envC1 stInit
        (Stmt.classDef 1 "C" [Expr.name "B1", Expr.name "B2"] [] []) =
      Except.ok st' ∧
    ((1, "Incompatible subtypes") ∈ st'.errors ∧
     st'.types.lookup 1 = some (DeclValue.clsDecl
       ((clsB1.make_subclass ⟨envC1.modName, "C"⟩ [clsB1, clsB2]).exact_type)) ∧
     clsB1.make_subclass ⟨envC1.modName, "C"⟩ [clsB1, clsB2] ≠ StaticType.dynamic) :=
  ⟨_, rfl, c1_incompatible_reported_class_stays_concrete envC1 stInit 1 "C"
    (Expr.name "B1") (Expr.name "B2") clsB1 clsB2 [] _ rfl rfl (by decide) rfl rfl
    (by decide) rfl rfl⟩

/-- Claim C2, counterexample: an `if TYPE_CHECKING:` statement with an `else`
branch holding an import.  After the visit the import is bound in the module
member map, so the `else` branch was visited (inside a fresh non-declaring
scope) — refuting "the `else` branch, when present, is not visited at
all". -/
theorem c2_counterexample :
    ∃ st', visitStmt env0 stInit
        (Stmt.ifStmt 1 (Expr.name "TYPE_CHECKING") [Stmt.pass 2]
          [Stmt.imp 3 [("a", none)]]) =
      Except.ok st' ∧
    st'.moduleMembers = [("a", DeclValue.impDecl none ⟨"a", 0, none, some "a"⟩)] :=
  ⟨_, rfl, by decide⟩

/-- Claim C2, amended: for `if TYPE_CHECKING:` the body is visited without
entering a non-declaring scope (with no `else`, the visit is literally the
visit of the body in the enclosing scope), while the `else` branch is
visited inside a fresh non-declaring scope, so it contributes no class,
function or variable binding to the enclosing scope — only imports can
escape it. -/
theorem c2_type_checking_guard :
    (∀ (env : Env) (st : VState) (nid : Nat) (body : List Stmt),
      visitStmt env st (Stmt.ifStmt nid (Expr.name "TYPE_CHECKING") body []) =
        visitStmts env st body) ∧
    (∀ (env : Env) (st : VState) (nid : Nat) (orelse : List Stmt) (st' : VState),
      visitStmt env st (Stmt.ifStmt nid (Expr.name "TYPE_CHECKING") [] orelse) =
        Except.ok st' →
      importOnlyExt st.moduleMembers st'.moduleMembers) := by
  constructor
  · intro env st nid body
    cases hv : visitStmts env st body with
    | ok a => simp [visitStmt, hv, Bind.bind, Except.bind]
    | error e => simp [visitStmt, hv, Bind.bind, Except.bind]
  · intro env st nid orelse st' h
    simp only [visitStmt, reduceIte, visitStmts] at h
    obtain ⟨st1, h1, h2⟩ := except_bind_ok h
    simp only [Except.ok.injEq] at h1
    subst h1
    cases orelse with
    | nil =>
      simp only [Except.ok.injEq] at h2
      subst h2
      exact ⟨[], rfl, fun _ h => absurd h (List.not_mem_nil _)⟩
    | cons o os =>
      obtain ⟨st2, h3, h4⟩ := except_bind_ok h2
      simp only [Except.ok.injEq] at h4
      subst h4
      obtain ⟨_, _, m, hm, hi⟩ := stepInv_visitStmts env (o :: os) _ st2 h3
      refine ⟨m, hm, hi ?_⟩
      simp [pushScope, Scope.kind]

/-- Witness for the amended C2 theorem at a concrete input with an `else`
branch. -/
theorem c2_witness :
    ∃ st', visitStmt env0 stInit
        (Stmt.ifStmt 1 (Expr.name "TYPE_CHECKING") [] [Stmt.imp 5 [("q", none)]]) =
      Except.ok st' ∧
    importOnlyExt stInit.moduleMembers st'.moduleMembers :=
  ⟨_, rfl, c2_type_checking_guard.2 env0 stInit 1 [Stmt.imp 5 [("q", none)]] _ rfl⟩

/-- Claim C3: a plain `import a.b.c` with no alias binds the top-level
segment `a` to a deferred import of the full path whose resolution yields
the top-level module, while `import a.b.c as x` binds `x` to a deferred
reference targeting the fully qualified path `a.b.c`. -/
theorem c3_import_binding :
    (∀ (env : Env) (st : VState) (nid : Nat) (path : String),
      visitStmt env st (Stmt.imp nid [(path, none)]) =
        Except.ok (declareImp st (topLevelModule path) none
          ⟨path, env.optimize, none, some (topLevelModule path)⟩)) ∧
    (∀ (env : Env) (st : VState) (nid : Nat) (path al : String),
      visitStmt env st (Stmt.imp nid [(path, some al)]) =
        Except.ok (declareImp st al none ⟨path, env.optimize, none, none⟩)) ∧
    (∀ (opt : Nat) (path : String),
      DeferredImport.resolvesTo ⟨path, opt, none, some (topLevelModule path)⟩ =
        topLevelModule path) ∧
    (∀ (opt : Nat) (path : String),
      DeferredImport.resolvesTo ⟨path, opt, none, none⟩ = path) ∧
    topLevelModule "a.b.c" = "a" :=
  ⟨fun _ _ _ _ => rfl, fun _ _ _ _ _ => rfl, fun _ _ => rfl, fun _ _ => rfl, by decide⟩

/-- Claim C4, counterexample: the source's `exit_scope` takes no expected
scope and pops whatever is on top; an expectation-checking exit (modelled
from the spec as `exit_scope_expected`) refuses the same pop when the top
scope is not the expected one.  So `exit_scope` performs no match
assertion. -/
theorem c4_counterexample :
    exit_scope [Scope.module] = some [] ∧
    exit_scope_expected Scope.nested [Scope.module] = none := by
  constructor <;> rfl

/-- Claim C4, amended: `exit_scope` pops the top scope unconditionally, with
no assertion against a caller-expected scope; popping an empty stack is a
fatal failure (`none`, an exception) and is never recorded as a user-facing
diagnostic. -/
theorem c4_exit_pops_unconditionally :
    (∀ (s : Scope) (rest : List Scope), exit_scope (s :: rest) = some rest) ∧
    exit_scope [] = none :=
  ⟨fun _ _ => rfl, rfl⟩

/-- Claim C5: class decorators are applied in reverse syntactic order — for
`[D1, D2]` the innermost `D2` rewrites the raw class type first and `D1` is
applied to the result — and as soon as the current type is (or becomes) the
dynamic sentinel, in particular when a decorator expression is
unresolvable, no further decorator is applied. -/
theorem c5_decorator_order (env : Env) :
    (∀ (d1 d2 : Expr) (k D1 D2 : StaticType),
      k ≠ StaticType.dynamic →
      env.resolveDecorator d2 = some D2 → D2 ≠ StaticType.dynamic →
      env.resolveDecorator d1 = some D1 → D1 ≠ StaticType.dynamic →
      env.decorateClass D2 k d2 ≠ StaticType.dynamic →
      applyDecorators env [d1, d2] k =
        env.decorateClass D1 (env.decorateClass D2 k d2) d1) ∧
    (∀ ds : List Expr,
      applyDecorators env ds StaticType.dynamic = StaticType.dynamic) ∧
    (∀ (ds : List Expr) (d : Expr) (k : StaticType),
      env.resolveDecorator d = none →
      applyDecorators env (ds ++ [d]) k = StaticType.dynamic) := by
  refine ⟨?_, ?_, ?_⟩
  · intro d1 d2 k D1 D2 hk h2 hD2 h1 hD1 hmid
    show applyDecoratorsRev env [d2, d1] k = _
    rw [applyDecoratorsRev, if_neg hk, h2]
    simp only [Option.getD_some]
    rw [if_neg hD2, applyDecoratorsRev, if_neg hmid, h1]
    simp only [Option.getD_some]
    rw [if_neg hD1, applyDecoratorsRev]
  · intro ds
    exact applyDecoratorsRev_dynamic env ds.reverse
  · intro ds d k hd
    unfold applyDecorators
    rw [List.reverse_append]
    by_cases hk : k = StaticType.dynamic
    · subst hk
      exact applyDecoratorsRev_dynamic ..
    · simp only [List.reverse_cons, List.reverse_nil, List.nil_append,
        List.singleton_append, applyDecoratorsRev, if_neg hk, hd,
        Option.getD_none, reduceIte]
      exact applyDecoratorsRev_dynamic ..

/-- Witness for C5 at a concrete decorator chain: `D2` wraps the raw class
first, then `D1` wraps `D2`'s result; a chain ending in an unresolvable
decorator collapses to the dynamic sentinel. -/
theorem c5_witness :
    applyDecorators envC5 [Expr.name "D1", Expr.name "D2"] clsP =
      envC5.decorateClass decD1 (envC5.decorateClass decD2 clsP (Expr.name "D2"))
        (Expr.name "D1") ∧
    applyDecorators envC5 [Expr.name "D1", Expr.name "nope"] clsP =
      StaticType.dynamic :=
  ⟨(c5_decorator_order envC5).1 (Expr.name "D1") (Expr.name "D2") clsP decD1 decD2
      (by decide) rfl (by decide) rfl (by decide) (by decide),
   (c5_decorator_order envC5).2.2 [Expr.name "D1"] (Expr.name "nope") clsP rfl⟩

/-- Claim C6: a class definition whose innermost enclosing scope is a
function scope resolves to the dynamic sentinel, whatever its bases and
decorators. -/
theorem c6_function_scope_class_dynamic
    (env : Env) (st : VState) (nid : Nat) (name fname : String)
    (ms : List (String × DeclValue)) (bases decorators : List Expr)
    (body : List Stmt) (st' : VState)
    (hfn : st.scopes.head? = some (Scope.func fname ms))
    (hok : visitStmt env st (Stmt.classDef nid name bases decorators body) =
      Except.ok st') :
    st'.types.lookup nid = some (DeclValue.clsDecl StaticType.dynamic) :=
  classDef_nonmodule_dynamic env st nid name bases decorators body st'
    (by simp [hfn]) hok

/-- Witness for C6: a class directly inside a function scope. -/
theorem c6_witness :
    ∃ st', visitStmt env0 stFuncW (Stmt.classDef 7 "C" [] [] []) = Except.ok st' ∧
      st'.types.lookup 7 = some (DeclValue.clsDecl StaticType.dynamic) :=
  ⟨_, rfl, c6_function_scope_class_dynamic env0 stFuncW 7 "C" "f" [] [] [] [] _
    rfl rfl⟩

/-- Claim C7, counterexample: a class whose base list is
`[NamedTuple, F]` with `F` final.  The base scan stops at the named-tuple
marker before reaching `F`, so no `"cannot subclass a Final class"` error is
emitted at all (the error sink stays empty) — refuting "for every class
definition with a base marked final, the pass emits …". -/
theorem c7_counterexample :
    envC7.resolveType (Expr.name "F") = some clsF ∧
    clsF.is_final = true ∧
    ∃ st', visitStmt envC7 stInit
        (Stmt.classDef 1 "Bad" [Expr.name "NT", Expr.name "F"] [] []) =
      Except.ok st' ∧
    st'.errors = [] :=
  ⟨rfl, rfl, _, rfl, by decide⟩

/-- Claim C7, amended: when no base is one of the degradation marker types,
a final base does produce the `"cannot subclass a Final class"` error,
attributed to the class definition node, and the error does not by itself
degrade the class: the resolved type is still the first base's synthesized
subclass (concrete whenever the first base is). -/
theorem c7_final_base_error_unless_marker
    (env : Env) (st : VState) (nid : Nat) (name : String) (bs : List Expr)
    (body : List Stmt) (st' : VState) (B1 B : StaticType) (rest : List StaticType)
    (hres : List.map (fun b => (env.resolveType b).getD StaticType.dynamic) bs =
      B1 :: rest)
    (hnm : ∀ b ∈ B1 :: rest, StaticType.isMarkerBase b = false)
    (hmod : st.scopes.head? = some Scope.module)
    (hB : B ∈ B1 :: rest) (hfin : B.is_final = true)
    (hok : visitStmt env st (Stmt.classDef nid name bs [] body) = Except.ok st') :
    (nid, finalSubclassError
        (B1.make_subclass ⟨env.modName, name⟩ (B1 :: rest)).instanceName
        B.instanceName) ∈ st'.errors ∧
    st'.types.lookup nid = some (DeclValue.clsDecl
      ((B1.make_subclass ⟨env.modName, name⟩ (B1 :: rest)).exact_type)) ∧
    (B1 ≠ StaticType.dynamic →
      B1.make_subclass ⟨env.modName, name⟩ (B1 :: rest) ≠ StaticType.dynamic) := by
  obtain ⟨_, hc2, hty⟩ := classDef_resolution env st nid name bs body st'
    (B1 :: rest) hres (by simp) hnm hmod hok
  have hkmem : (nid, finalSubclassError
      (B1.make_subclass ⟨env.modName, name⟩ (B1 :: rest)).instanceName
      B.instanceName) ∈
      (checkBases (B1.make_subclass ⟨env.modName, name⟩ (B1 :: rest)) nid
        (B1 :: rest)).2 := by
    rw [checkBases_no_marker _ _ _ hnm]
    exact List.mem_map_of_mem _ (List.mem_filter.2 ⟨hB, hfin⟩)
  exact ⟨hc2 _ hkmem, hty, fun hd => make_subclass_ne_dynamic hd _ _⟩

/-- Witness for the amended C7 theorem: base list `[P, F2]` with `F2` final
and no marker base. -/
theorem c7_witness :
    ∃ st', visitStmt envC7 stInit
        (Stmt.classDef 1 "Bad2" [Expr.name "P", Expr.name "F2"] [] []) =
      Except.ok st' ∧
    ((1, finalSubclassError
        (clsP.make_subclass ⟨envC7.modName, "Bad2"⟩ [clsP, clsF2]).instanceName
        clsF2.instanceName) ∈ st'.errors ∧
     st'.types.lookup 1 = some (DeclValue.clsDecl
       ((clsP.make_subclass ⟨envC7.modName, "Bad2"⟩ [clsP, clsF2]).exact_type)) ∧
     (clsP ≠ StaticType.dynamic →
       clsP.make_subclass ⟨envC7.modName, "Bad2"⟩ [clsP, clsF2] ≠ StaticType.dynamic)) :=
  ⟨_, rfl, c7_final_base_error_unless_marker envC7 stInit 1 "Bad2"
    [Expr.name "P", Expr.name "F2"] [] _ clsP clsF2 [clsF2] rfl (by decide) rfl
    (by decide) rfl rfl⟩

/-- Claim C8: a `from`-import with a non-zero level (a relative import)
makes the visit fail fast with the `NotImplementedError` message, binding no
name, and the failure propagates out of enclosing statements instead of
being recovered. -/
theorem c8_relative_import_fails :
    (∀ (env : Env) (st : VState) (nid : Nat) (modl : Option String)
        (names : List (String × Option String)) (level : Nat),
      level ≠ 0 →
      visitStmt env st (Stmt.impFrom nid modl names level) =
        Except.error relImportMsg) ∧
    (∀ (env : Env) (st : VState) (k nid : Nat) (modl : Option String)
        (names : List (String × Option String)) (level : Nat),
      level ≠ 0 →
      visitStmt env st (Stmt.forStmt k [Stmt.impFrom nid modl names level]) =
        Except.error relImportMsg) := by
  constructor
  · intro env st nid modl names level hl
    cases modl with
    | none => simp [visitStmt]
    | some m => simp [visitStmt, Or.inr hl]
  · intro env st k nid modl names level hl
    cases modl with
    | none => simp [visitStmt, visitStmts, Bind.bind, Except.bind]
    | some m => simp [visitStmt, visitStmts, Bind.bind, Except.bind, Or.inr hl]

/-- Witness for C8 at a concrete relative import (`from .p import x`,
level 1), standalone and inside a loop body. -/
theorem c8_witness :
    (1 : Nat) ≠ 0 ∧
    visitStmt env0 stInit (Stmt.impFrom 2 (some "p") [("x", none)] 1) =
      Except.error relImportMsg ∧
    visitStmt env0 stInit (Stmt.forStmt 3 [Stmt.impFrom 2 (some "p") [("x", none)] 1]) =
      Except.error relImportMsg :=
  ⟨by decide,
   c8_relative_import_fails.1 env0 stInit 2 (some "p") [("x", none)] 1 (by decide),
   c8_relative_import_fails.2 env0 stInit 3 2 (some "p") [("x", none)] 1 (by decide)⟩

/-- Claim C9, counterexample: an `import a` inside a `for` body is declared
straight into the module table (the import path bypasses the scope stack),
so a declaration inside a loop body does become a binding of the enclosing
module scope — refuting the "no class, function, variable, or import"
claim for imports. -/
theorem c9_counterexample :
    ∃ st', visitStmt env0 stInit (Stmt.forStmt 1 [Stmt.imp 2 [("a", none)]]) =
      Except.ok st' ∧
    st'.moduleMembers = [("a", DeclValue.impDecl none ⟨"a", 0, none, some "a"⟩)] :=
  ⟨_, rfl, by decide⟩

/-- Claim C9, amended: visiting a loop / `with` / `try` style body can only
extend the module member map with deferred-import declarations: no class,
function, or variable declared inside such a body ever becomes a binding of
the enclosing scope, but imports do. -/
theorem c9_nested_bodies_import_only
    (env : Env) (st : VState) (s : Stmt) (c : List Stmt) (st' : VState)
    (hc : loopLikeChildren s = some c)
    (hok : visitStmt env st s = Except.ok st') :
    importOnlyExt st.moduleMembers st'.moduleMembers ∧
    ∀ p ∈ st'.moduleMembers, p ∈ st.moduleMembers ∨ DeclValue.isImp p.2 = true := by
  have aux : ∀ cs : List Stmt,
      (do
        let st1 ← visitStmts env (pushScope st Scope.nested) cs
        Except.ok (popScope st1)) = Except.ok st' →
      importOnlyExt st.moduleMembers st'.moduleMembers := by
    intro cs h
    obtain ⟨st1, h1, h2⟩ := except_bind_ok h
    simp only [Except.ok.injEq] at h2
    subst h2
    obtain ⟨_, _, m, hm, hi⟩ := stepInv_visitStmts env cs _ st1 h1
    exact ⟨m, hm, hi (by simp [pushScope, Scope.kind])⟩
  have main : importOnlyExt st.moduleMembers st'.moduleMembers := by
    cases s with
    | classDef a b c d e => simp [loopLikeChildren] at hc
    | funcDef a b c d e => simp [loopLikeChildren] at hc
    | annAssign a b => simp [loopLikeChildren] at hc
    | assign a b => simp [loopLikeChildren] at hc
    | imp a b => simp [loopLikeChildren] at hc
    | impFrom a b c d => simp [loopLikeChildren] at hc
    | ifStmt a b c d => simp [loopLikeChildren] at hc
    | pass a => simp [loopLikeChildren] at hc
    | forStmt nid ch =>
      simp only [loopLikeChildren, Option.some.injEq] at hc
      subst hc
      simp only [visitStmt] at hok
      exact aux ch hok
    | asyncForStmt nid ch =>
      simp only [loopLikeChildren, Option.some.injEq] at hc
      subst hc
      simp only [visitStmt] at hok
      exact aux ch hok
    | whileStmt nid ch =>
      simp only [loopLikeChildren, Option.some.injEq] at hc
      subst hc
      simp only [visitStmt] at hok
      exact aux ch hok
    | withStmt nid ch =>
      simp only [loopLikeChildren, Option.some.injEq] at hc
      subst hc
      simp only [visitStmt] at hok
      exact aux ch hok
    | asyncWithStmt nid ch =>
      simp only [loopLikeChildren, Option.some.injEq] at hc
      subst hc
      simp only [visitStmt] at hok
      exact aux ch hok
    | tryStmt nid ch =>
      simp only [loopLikeChildren, Option.some.injEq] at hc
      subst hc
      simp only [visitStmt] at hok
      exact aux ch hok
  refine ⟨main, ?_⟩
  obtain ⟨m, hm, hi⟩ := main
  intro p hp
  rw [hm] at hp
  rcases List.mem_append.1 hp with h | h
  · exact Or.inr (hi p h)
  · exact Or.inl h

/-- Witness for the amended C9 theorem: a `for` body declaring a class and
an import extends the module member map with the import only. -/
theorem c9_witness :
    ∃ st', visitStmt env0 stInit
        (Stmt.forStmt 1 [Stmt.classDef 2 "C" [] [] [], Stmt.imp 3 [("a", none)]]) =
      Except.ok st' ∧
    (importOnlyExt stInit.moduleMembers st'.moduleMembers ∧
     ∀ p ∈ st'.moduleMembers, p ∈ stInit.moduleMembers ∨ DeclValue.isImp p.2 = true) :=
  ⟨_, rfl, c9_nested_bodies_import_only env0 stInit
    (Stmt.forStmt 1 [Stmt.classDef 2 "C" [] [] [], Stmt.imp 3 [("a", none)]])
    [Stmt.classDef 2 "C" [] [] [], Stmt.imp 3 [("a", none)]] _ rfl rfl⟩

/-- Claim C10: a class definition whose innermost enclosing scope is
anything other than the module scope — a function scope, a class scope (a
class nested directly in another class body), or a nested scope — resolves
to the dynamic sentinel regardless of its base list. -/
theorem c10_nonmodule_scope_class_dynamic
    (env : Env) (st : VState) (nid : Nat) (name : String)
    (bases decorators : List Expr) (body : List Stmt) (st' : VState) (sc : Scope)
    (hsc : st.scopes.head? = some sc) (hns : sc ≠ Scope.module)
    (hok : visitStmt env st (Stmt.classDef nid name bases decorators body) =
      Except.ok st') :
    st'.types.lookup nid = some (DeclValue.clsDecl StaticType.dynamic) :=
  classDef_nonmodule_dynamic env st nid name bases decorators body st'
    (by simp only [hsc]; exact fun hcon => hns (Option.some.inj hcon)) hok

/-- Witness for C10: a class directly inside a class scope. -/
theorem c10_witness :
    ∃ st', visitStmt env0 stClsW (Stmt.classDef 9 "D" [] [] []) = Except.ok st' ∧
      st'.types.lookup 9 = some (DeclValue.clsDecl StaticType.dynamic) :=
  ⟨_, rfl, c10_nonmodule_scope_class_dynamic env0 stClsW 9 "D" [] [] [] _
    (Scope.cls clsP []) rfl (by decide) rfl⟩

end CinderDecl
